import Mathlib

/-
Shallow embedding of the sliding-window rate limiter of GmailMcp
(src/rateLimiter.ts) and proofs about it.

Times are modelled as integers (milliseconds, the value of `Date.now()`).
The module-level mutable `state` of the source becomes explicit state
passing: every operation takes the current `RateLimitState` and returns
the state the source leaves behind (reads mutate the state too, because
`cleanupRecords` reassigns the filtered arrays).  The current instant,
read inside the source via `Date.now()`, is an explicit `now` argument,
and the configuration read via `getConfig()` is an explicit argument as
well.  `Math.random()` becomes an explicit rational argument `random`
with `0 ≤ random < 1`.  All operations are total Lean functions: the
source has no `throw` and no fallible step, so no `Option`/`Except` is
needed anywhere.
-/

namespace GmailMcp

/-- Milliseconds in one hour, mirroring `ONE_HOUR_MS = 60 * 60 * 1000`. -/
def ONE_HOUR_MS : Int := 60 * 60 * 1000

/-- Milliseconds in one day, mirroring `ONE_DAY_MS = 24 * 60 * 60 * 1000`. -/
def ONE_DAY_MS : Int := 24 * 60 * 60 * 1000

/-- The `rateLimit` part of the configuration (config.ts): two integers
parsed from the environment, fixed for the process lifetime. -/
structure RateLimitConfig where
  maxPerHour : Int
  maxPerDay : Int
deriving Repr, DecidableEq

/-- The module-level `RateLimitState`: each `RateLimitRecord` carries only
a `timestamp`, so a record is embedded as its timestamp. -/
structure RateLimitState where
  hourlyRecords : List Int
  dailyRecords : List Int
deriving Repr, DecidableEq

/-- `cleanupRecords`: drop records with `now - record.timestamp >= ONE_HOUR_MS`
from the hourly list and those with `now - record.timestamp >= ONE_DAY_MS`
from the daily list, keeping everything else in order. -/
def cleanupRecords (now : Int) (s : RateLimitState) : RateLimitState :=
  { hourlyRecords := s.hourlyRecords.filter fun t => decide (now - t < ONE_HOUR_MS)
    dailyRecords := s.dailyRecords.filter fun t => decide (now - t < ONE_DAY_MS) }

/-- The exact text of the hourly-limit denial message built in `canSendEmail`. -/
def hourlyReasonMsg (maxPerHour : Int) : String :=
  "Hourly limit reached (" ++ toString maxPerHour ++
    "/hour). Please wait before sending more emails."

/-- The exact text of the daily-limit denial message built in `canSendEmail`. -/
def dailyReasonMsg (maxPerDay : Int) : String :=
  "Daily limit reached (" ++ toString maxPerDay ++ "/day). Please try again tomorrow."

/-- Result record of `canSendEmail`; the optional `reason` field becomes
an `Option String`. -/
structure CanSendResult where
  allowed : Bool
  reason : Option String
  hourlyRemaining : Int
  dailyRemaining : Int
deriving Repr, DecidableEq

/-- `canSendEmail`: cleanup, count both windows, clamp the remaining
capacities at zero, and deny with the hourly message first, then the
daily message, else allow.  The second component is the module state
after the call (the state rewritten by `cleanupRecords`). -/
def canSendEmail (cfg : RateLimitConfig) (now : Int) (s : RateLimitState) :
    CanSendResult × RateLimitState :=
  let s' := cleanupRecords now s
  let hourlyCount : Int := s'.hourlyRecords.length
  let dailyCount : Int := s'.dailyRecords.length
  let hourlyRemaining := max 0 (cfg.maxPerHour - hourlyCount)
  let dailyRemaining := max 0 (cfg.maxPerDay - dailyCount)
  if hourlyCount ≥ cfg.maxPerHour then
    (⟨false, some (hourlyReasonMsg cfg.maxPerHour), hourlyRemaining, dailyRemaining⟩, s')
  else if dailyCount ≥ cfg.maxPerDay then
    (⟨false, some (dailyReasonMsg cfg.maxPerDay), hourlyRemaining, dailyRemaining⟩, s')
  else
    (⟨true, none, hourlyRemaining, dailyRemaining⟩, s')

/-- `recordEmailSent`: push one record with `timestamp = now` onto both
arrays (JS `push` appends at the end). -/
def recordEmailSent (now : Int) (s : RateLimitState) : RateLimitState :=
  { hourlyRecords := s.hourlyRecords ++ [now]
    dailyRecords := s.dailyRecords ++ [now] }

/-- Result record of `getRateLimitStatus`. -/
structure RateLimitStatus where
  hourlyCount : Int
  hourlyLimit : Int
  hourlyRemaining : Int
  dailyCount : Int
  dailyLimit : Int
  dailyRemaining : Int
deriving Repr, DecidableEq

/-- `getRateLimitStatus`: cleanup, then report counts, limits and clamped
remaining capacities; the second component is the post-call module state. -/
def getRateLimitStatus (cfg : RateLimitConfig) (now : Int) (s : RateLimitState) :
    RateLimitStatus × RateLimitState :=
  let s' := cleanupRecords now s
  (⟨s'.hourlyRecords.length, cfg.maxPerHour,
      max 0 (cfg.maxPerHour - s'.hourlyRecords.length),
    s'.dailyRecords.length, cfg.maxPerDay,
      max 0 (cfg.maxPerDay - s'.dailyRecords.length)⟩, s')

/-- `getMaxBatchSize`: call `canSendEmail`; return `0` on denial, else the
minimum of the request and the two remaining capacities.  The second
component is the post-call module state. -/
def getMaxBatchSize (cfg : RateLimitConfig) (now : Int) (requested : Int)
    (s : RateLimitState) : Int × RateLimitState :=
  let status := canSendEmail cfg now s
  if status.1.allowed = false then (0, status.2)
  else (min requested (min status.1.hourlyRemaining status.1.dailyRemaining), status.2)

/-- `getRandomDelay`: `Math.floor(Math.random() * (maxDelay - minDelay + 1)) + minDelay`
with `minDelay = 3000` and `maxDelay = 8000`; `Math.random()` is the
explicit argument `random` (a rational in `[0, 1)`). -/
def getRandomDelay (random : ℚ) : Int :=
  let minDelay : Int := 3000
  let maxDelay : Int := 8000
  Int.floor (random * ((maxDelay - minDelay + 1 : Int) : ℚ)) + minDelay

/-- The `getRandomDelay` call as an operation on the module state: its body
reads and writes no field of `state`, so the state passes through unchanged. -/
def getRandomDelayOp (random : ℚ) (s : RateLimitState) : Int × RateLimitState :=
  (getRandomDelay random, s)

/-- States reachable from the initial empty module state under a
non-decreasing clock: the state is born empty, `recordEmailSent` may run
at the current instant, and `cleanupRecords` (the mutation performed by
every read) may run at any instant not before the current one; the clock
may also advance with no state change. -/
inductive Reachable : Int → RateLimitState → Prop where
  | init (now : Int) : Reachable now { hourlyRecords := [], dailyRecords := [] }
  | record {now : Int} {s : RateLimitState} :
      Reachable now s → Reachable now (recordEmailSent now s)
  | cleanup {now : Int} {s : RateLimitState} (now' : Int) :
      Reachable now s → now ≤ now' → Reachable now' (cleanupRecords now' s)
  | tick {now : Int} {s : RateLimitState} (now' : Int) :
      Reachable now s → now ≤ now' → Reachable now' s

/-- Helper: the hourly and daily denial messages are distinct strings for
any pair of configured limits (they start with different words). -/
theorem hourlyReasonMsg_ne_dailyReasonMsg (a b : Int) :
    hourlyReasonMsg a ≠ dailyReasonMsg b := by
  intro h
  have hd := congrArg (fun str => str.data.head?) h
  simp only [hourlyReasonMsg, dailyReasonMsg, String.data_append] at hd
  simp at hd

/-- C1: `canSendEmail` first purges expired events (its post-state is
exactly `cleanupRecords now s` and its counts are taken from it), returns
`hourlyRemaining = max 0 (maxPerHour - hourlyCount)` and
`dailyRemaining = max 0 (maxPerDay - dailyCount)`, and allows exactly when
`hourlyCount < maxPerHour` and `dailyCount < maxPerDay`; the windows are
counted independently: with `maxPerHour = 5`, `maxPerDay = 50`, five
recorded sends exhaust hourly admission while `dailyRemaining = 45`. -/
theorem canSendEmail_spec :
    (∀ (cfg : RateLimitConfig) (now : Int) (s : RateLimitState),
      (canSendEmail cfg now s).2 = cleanupRecords now s ∧
      (canSendEmail cfg now s).1.hourlyRemaining =
        max 0 (cfg.maxPerHour - (cleanupRecords now s).hourlyRecords.length) ∧
      (canSendEmail cfg now s).1.dailyRemaining =
        max 0 (cfg.maxPerDay - (cleanupRecords now s).dailyRecords.length) ∧
      ((canSendEmail cfg now s).1.allowed = true ↔
        ((cleanupRecords now s).hourlyRecords.length : Int) < cfg.maxPerHour ∧
        ((cleanupRecords now s).dailyRecords.length : Int) < cfg.maxPerDay)) ∧
    (canSendEmail ⟨5, 50⟩ 0
        (recordEmailSent 0 (recordEmailSent 0 (recordEmailSent 0
          (recordEmailSent 0 (recordEmailSent 0 ⟨[], []⟩)))))).1.allowed = false ∧
    (canSendEmail ⟨5, 50⟩ 0
        (recordEmailSent 0 (recordEmailSent 0 (recordEmailSent 0
          (recordEmailSent 0 (recordEmailSent 0 ⟨[], []⟩)))))).1.dailyRemaining = 45 := by
  refine ⟨fun cfg now s => ?_, by decide, by decide⟩
  unfold canSendEmail
  dsimp only
  split
  · simp_all
  · split
    · simp_all
    · simp_all

/-- C2: whenever both windows are exhausted after cleanup, `canSendEmail`
reports the hourly-limit reason and never the daily one (the hourly check
comes first). -/
theorem canSendEmail_hourly_precedence (cfg : RateLimitConfig) (now : Int)
    (s : RateLimitState)
    (hh : cfg.maxPerHour ≤ ((cleanupRecords now s).hourlyRecords.length : Int))
    (hd : cfg.maxPerDay ≤ ((cleanupRecords now s).dailyRecords.length : Int)) :
    (canSendEmail cfg now s).1.reason = some (hourlyReasonMsg cfg.maxPerHour) ∧
    (canSendEmail cfg now s).1.reason ≠ some (dailyReasonMsg cfg.maxPerDay) := by
  unfold canSendEmail
  dsimp only
  split
  · simp [hourlyReasonMsg_ne_dailyReasonMsg]
  · simp_all

/-- C2 witness: with `maxPerHour = 1`, `maxPerDay = 1`, after one recorded
send the returned reason is the hourly-limit message. -/
theorem canSendEmail_hourly_precedence_witness :
    (canSendEmail ⟨1, 1⟩ 0 (recordEmailSent 0 ⟨[], []⟩)).1.reason =
      some (hourlyReasonMsg 1) ∧
    (canSendEmail ⟨1, 1⟩ 0 (recordEmailSent 0 ⟨[], []⟩)).1.reason ≠
      some (dailyReasonMsg 1) :=
  canSendEmail_hourly_precedence ⟨1, 1⟩ 0 (recordEmailSent 0 ⟨[], []⟩)
    (by decide) (by decide)

/-- Helper: counting occurrences in a filtered list keeps the count of a
value satisfying the predicate and zeroes out the rest. -/
theorem count_filter_decide (l : List Int) (p : Int → Prop) [DecidablePred p] (t : Int) :
    (l.filter fun x => decide (p x)).count t = if p t then l.count t else 0 := by
  induction l with
  | nil => simp
  | cons a l ih =>
    by_cases hp : p a <;> by_cases ha : a = t <;>
      simp_all [List.filter_cons, List.count_cons]

/-- Helper: occurrence count of a timestamp in the hourly window after
cleanup, phrased with the query-before-expiry threshold. -/
theorem count_cleanup_hourly (s : RateLimitState) (now t : Int) :
    (cleanupRecords now s).hourlyRecords.count t =
      if now < t + ONE_HOUR_MS then s.hourlyRecords.count t else 0 := by
  unfold cleanupRecords
  rw [count_filter_decide]
  split <;> split <;> first | rfl | omega

/-- Helper: occurrence count of a timestamp in the daily window after
cleanup, phrased with the query-before-expiry threshold. -/
theorem count_cleanup_daily (s : RateLimitState) (now t : Int) :
    (cleanupRecords now s).dailyRecords.count t =
      if now < t + ONE_DAY_MS then s.dailyRecords.count t else 0 := by
  unfold cleanupRecords
  rw [count_filter_decide]
  split <;> split <;> first | rfl | omega

/-- C3: an event with timestamp `t` survives (with its full multiplicity)
the hourly cleanup at query time `now` exactly when `now < t + 1 hour`,
and the daily cleanup exactly when `now < t + 24 hours`; concretely, with
`maxPerHour = 2` and `maxPerDay = 5`, two sends at time 0 queried 61
minutes later give `allowed = true`, `hourlyRemaining = 2`,
`dailyRemaining = 3`. -/
theorem cleanupRecords_expiry :
    (∀ (s : RateLimitState) (now t : Int),
      ((cleanupRecords now s).hourlyRecords.count t =
        if now < t + ONE_HOUR_MS then s.hourlyRecords.count t else 0) ∧
      ((cleanupRecords now s).dailyRecords.count t =
        if now < t + ONE_DAY_MS then s.dailyRecords.count t else 0) ∧
      (t ∈ (cleanupRecords now s).hourlyRecords ↔
        t ∈ s.hourlyRecords ∧ now < t + ONE_HOUR_MS) ∧
      (t ∈ (cleanupRecords now s).dailyRecords ↔
        t ∈ s.dailyRecords ∧ now < t + ONE_DAY_MS)) ∧
    (canSendEmail ⟨2, 5⟩ 3660000
        (recordEmailSent 0 (recordEmailSent 0 ⟨[], []⟩))).1 = ⟨true, none, 2, 3⟩ := by
  refine ⟨fun s now t =>
    ⟨count_cleanup_hourly s now t, count_cleanup_daily s now t, ?_, ?_⟩, by decide⟩
  · simp only [cleanupRecords, List.mem_filter, decide_eq_true_eq]
    constructor
    · rintro ⟨h1, h2⟩; exact ⟨h1, by omega⟩
    · rintro ⟨h1, h2⟩; exact ⟨h1, by omega⟩
  · simp only [cleanupRecords, List.mem_filter, decide_eq_true_eq]
    constructor
    · rintro ⟨h1, h2⟩; exact ⟨h1, by omega⟩
    · rintro ⟨h1, h2⟩; exact ⟨h1, by omega⟩

/-- C4: `recordEmailSent` appends exactly one record with timestamp `now`
to each window (so each count grows by exactly one and nothing else
changes), and two calls consume two slots in each window. -/
theorem recordEmailSent_spec (now : Int) (s : RateLimitState) :
    (recordEmailSent now s).hourlyRecords = s.hourlyRecords ++ [now] ∧
    (recordEmailSent now s).dailyRecords = s.dailyRecords ++ [now] ∧
    (recordEmailSent now s).hourlyRecords.length = s.hourlyRecords.length + 1 ∧
    (recordEmailSent now s).dailyRecords.length = s.dailyRecords.length + 1 ∧
    (recordEmailSent now (recordEmailSent now s)).hourlyRecords.length =
      s.hourlyRecords.length + 2 ∧
    (recordEmailSent now (recordEmailSent now s)).dailyRecords.length =
      s.dailyRecords.length + 2 := by
  simp [recordEmailSent]

/-- C5: `getMaxBatchSize` returns `0` when the admission check denies, and
otherwise the minimum of the request and the two remaining capacities of
that same check; concretely with `hourlyRemaining = 3` and
`dailyRemaining = 10` a request of `7` yields `3`. -/
theorem getMaxBatchSize_spec :
    (∀ (cfg : RateLimitConfig) (now requested : Int) (s : RateLimitState),
      (getMaxBatchSize cfg now requested s).1 =
        if (canSendEmail cfg now s).1.allowed = true then
          min requested (min (canSendEmail cfg now s).1.hourlyRemaining
            (canSendEmail cfg now s).1.dailyRemaining)
        else 0) ∧
    (getMaxBatchSize ⟨3, 10⟩ 0 7 ⟨[], []⟩).1 = 3 := by
  refine ⟨fun cfg now requested s => ?_, by decide⟩
  unfold getMaxBatchSize
  dsimp only
  split <;> simp_all

/-- Helper: cleanup is idempotent at a fixed instant. -/
theorem cleanupRecords_idem (now : Int) (s : RateLimitState) :
    cleanupRecords now (cleanupRecords now s) = cleanupRecords now s := by
  simp [cleanupRecords, List.filter_filter]

/-- Helper: the state left behind by `canSendEmail` is the cleaned state. -/
theorem canSendEmail_snd (cfg : RateLimitConfig) (now : Int) (s : RateLimitState) :
    (canSendEmail cfg now s).2 = cleanupRecords now s := by
  unfold canSendEmail
  dsimp only
  split
  · rfl
  · split <;> rfl

/-- Helper: the state left behind by `getRateLimitStatus` is the cleaned state. -/
theorem getRateLimitStatus_snd (cfg : RateLimitConfig) (now : Int) (s : RateLimitState) :
    (getRateLimitStatus cfg now s).2 = cleanupRecords now s := rfl

/-- Helper: two states with the same cleanup at `now` are indistinguishable
to `canSendEmail` at `now`. -/
theorem canSendEmail_congr (cfg : RateLimitConfig) (now : Int)
    {s₁ s₂ : RateLimitState} (h : cleanupRecords now s₁ = cleanupRecords now s₂) :
    canSendEmail cfg now s₁ = canSendEmail cfg now s₂ := by
  unfold canSendEmail
  rw [h]

/-- Helper: two states with the same cleanup at `now` are indistinguishable
to `getRateLimitStatus` at `now`. -/
theorem getRateLimitStatus_congr (cfg : RateLimitConfig) (now : Int)
    {s₁ s₂ : RateLimitState} (h : cleanupRecords now s₁ = cleanupRecords now s₂) :
    getRateLimitStatus cfg now s₁ = getRateLimitStatus cfg now s₂ := by
  unfold getRateLimitStatus
  rw [h]

/-- Helper: cleaning before recording does not change the state seen after
the next cleanup. -/
theorem cleanup_record_cleanup (now : Int) (s : RateLimitState) :
    cleanupRecords now (recordEmailSent now (cleanupRecords now s)) =
      cleanupRecords now (recordEmailSent now s) := by
  simp [cleanupRecords, recordEmailSent, List.filter_append, List.filter_filter]

/-- C6: at a fixed instant, `canSendEmail` and `getRateLimitStatus` are
idempotent and mutually transparent — repeating either read, in any
order, returns the identical result and leaves the identical state, and
the hidden cleanup a read performs does not change what a subsequent
`recordEmailSent`-then-read observes. -/
theorem reads_idempotent (cfg : RateLimitConfig) (now : Int) (s : RateLimitState) :
    canSendEmail cfg now (canSendEmail cfg now s).2 = canSendEmail cfg now s ∧
    getRateLimitStatus cfg now (getRateLimitStatus cfg now s).2 =
      getRateLimitStatus cfg now s ∧
    getRateLimitStatus cfg now (canSendEmail cfg now s).2 =
      getRateLimitStatus cfg now s ∧
    canSendEmail cfg now (getRateLimitStatus cfg now s).2 = canSendEmail cfg now s ∧
    canSendEmail cfg now (recordEmailSent now (canSendEmail cfg now s).2) =
      canSendEmail cfg now (recordEmailSent now s) := by
  refine ⟨?_, ?_, ?_, ?_, ?_⟩
  · rw [canSendEmail_snd]
    exact canSendEmail_congr cfg now (cleanupRecords_idem now s)
  · rw [getRateLimitStatus_snd]
    exact getRateLimitStatus_congr cfg now (cleanupRecords_idem now s)
  · rw [canSendEmail_snd]
    exact getRateLimitStatus_congr cfg now (cleanupRecords_idem now s)
  · rw [getRateLimitStatus_snd]
    exact canSendEmail_congr cfg now (cleanupRecords_idem now s)
  · rw [canSendEmail_snd]
    exact canSendEmail_congr cfg now (cleanup_record_cleanup now s)

/-- C7: every admission check returns a plain value whose `reason` is
present exactly on denial and is then one of the two limit messages
(hourly or daily), while the clamped remaining capacities are reported in
the allowed and the denied case alike. -/
theorem canSendEmail_reason_spec (cfg : RateLimitConfig) (now : Int) (s : RateLimitState) :
    (((canSendEmail cfg now s).1.allowed = true ∧
        (canSendEmail cfg now s).1.reason = none) ∨
      ((canSendEmail cfg now s).1.allowed = false ∧
        ((canSendEmail cfg now s).1.reason = some (hourlyReasonMsg cfg.maxPerHour) ∨
         (canSendEmail cfg now s).1.reason = some (dailyReasonMsg cfg.maxPerDay)))) ∧
    (canSendEmail cfg now s).1.hourlyRemaining =
      max 0 (cfg.maxPerHour - (cleanupRecords now s).hourlyRecords.length) ∧
    (canSendEmail cfg now s).1.dailyRemaining =
      max 0 (cfg.maxPerDay - (cleanupRecords now s).dailyRecords.length) := by
  unfold canSendEmail
  dsimp only
  split
  · simp
  · split <;> simp

/-- C8: for every draw of `Math.random()` in `[0, 1)`, `getRandomDelay`
returns between 3000 and 8000 milliseconds inclusive, and the call leaves
the limiter's window state unchanged. -/
theorem getRandomDelay_range (random : ℚ) (s : RateLimitState)
    (h0 : 0 ≤ random) (h1 : random < 1) :
    3000 ≤ getRandomDelay random ∧ getRandomDelay random ≤ 8000 ∧
    (getRandomDelayOp random s).2 = s := by
  refine ⟨?_, ?_, rfl⟩
  · unfold getRandomDelay
    dsimp only
    have hnn : (0 : ℚ) ≤ random * (((8000 : Int) - 3000 + 1 : Int) : ℚ) := by
      apply mul_nonneg h0
      norm_num
    have hf := Int.floor_nonneg.mpr hnn
    omega
  · unfold getRandomDelay
    dsimp only
    have hlt : random * (((8000 : Int) - 3000 + 1 : Int) : ℚ) < ((5001 : Int) : ℚ) := by
      push_cast
      nlinarith
    have hf := Int.floor_lt.mpr hlt
    omega

/-- C8 witness: a concrete draw of one half on the empty state. -/
theorem getRandomDelay_range_witness :
    3000 ≤ getRandomDelay (1 / 2) ∧ getRandomDelay (1 / 2) ≤ 8000 ∧
    (getRandomDelayOp (1 / 2) ⟨[], []⟩).2 = (⟨[], []⟩ : RateLimitState) :=
  getRandomDelay_range (1 / 2) ⟨[], []⟩ (by norm_num) (by norm_num)

/-- C9: in every reachable state the hourly window is a sub-multiset of
the daily window, so its count never exceeds the daily count. -/
theorem reachable_hourly_sub_daily (now : Int) (s : RateLimitState)
    (h : Reachable now s) :
    ((s.hourlyRecords : Multiset Int) ≤ (s.dailyRecords : Multiset Int)) ∧
    s.hourlyRecords.length ≤ s.dailyRecords.length := by
  have key : ∀ t, s.hourlyRecords.count t ≤ s.dailyRecords.count t := by
    induction h with
    | init => simp
    | record h ih =>
      intro t
      simp only [recordEmailSent, List.count_append]
      have := ih t
      omega
    | cleanup now' h hle ih =>
      intro t
      simp only [cleanupRecords]
      rw [count_filter_decide _ (fun x => now' - x < ONE_HOUR_MS),
        count_filter_decide _ (fun x => now' - x < ONE_DAY_MS)]
      by_cases hH : now' - t < ONE_HOUR_MS
      · have hD : now' - t < ONE_DAY_MS := by
          simp only [ONE_HOUR_MS] at hH
          simp only [ONE_DAY_MS]
          omega
        simpa [hH, hD] using ih t
      · simp [hH]
    | tick now' h hle ih => exact ih
  have hms : (s.hourlyRecords : Multiset Int) ≤ (s.dailyRecords : Multiset Int) :=
    Multiset.le_iff_count.mpr fun t => by simpa using key t
  refine ⟨hms, ?_⟩
  have := Multiset.card_le_card hms
  simpa using this

/-- C9 witness: the state reached by one send at time 0 and a cleanup at
time 10 satisfies the invariant. -/
theorem reachable_hourly_sub_daily_witness :
    (((cleanupRecords 10 (recordEmailSent 0 ⟨[], []⟩)).hourlyRecords : Multiset Int) ≤
      ((cleanupRecords 10 (recordEmailSent 0 ⟨[], []⟩)).dailyRecords : Multiset Int)) ∧
    (cleanupRecords 10 (recordEmailSent 0 ⟨[], []⟩)).hourlyRecords.length ≤
      (cleanupRecords 10 (recordEmailSent 0 ⟨[], []⟩)).dailyRecords.length :=
  reachable_hourly_sub_daily 10 _
    (Reachable.cleanup 10 (Reachable.record (Reachable.init 0)) (by decide))

/-- C10: `recordEmailSent` appends unconditionally (no admission check), so
an over-committed state is possible, yet every admission check still
returns non-negative remaining capacities and reports `allowed = false`
whenever either window is at or above its limit. -/
theorem overcommit_safe (cfg : RateLimitConfig) (now : Int) (s : RateLimitState) :
    0 ≤ (canSendEmail cfg now s).1.hourlyRemaining ∧
    0 ≤ (canSendEmail cfg now s).1.dailyRemaining ∧
    ((cfg.maxPerHour ≤ ((cleanupRecords now s).hourlyRecords.length : Int) ∨
      cfg.maxPerDay ≤ ((cleanupRecords now s).dailyRecords.length : Int)) →
      (canSendEmail cfg now s).1.allowed = false) ∧
    (recordEmailSent now s).hourlyRecords.length = s.hourlyRecords.length + 1 ∧
    (recordEmailSent now s).dailyRecords.length = s.dailyRecords.length + 1 := by
  refine ⟨?_, ?_, ?_, by simp [recordEmailSent], by simp [recordEmailSent]⟩
  · unfold canSendEmail
    dsimp only
    split
    · exact le_max_left _ _
    · split
      · exact le_max_left _ _
      · exact le_max_left _ _
  · unfold canSendEmail
    dsimp only
    split
    · exact le_max_left _ _
    · split
      · exact le_max_left _ _
      · exact le_max_left _ _
  · intro hcase
    unfold canSendEmail
    dsimp only
    split
    · rfl
    · split
      · rfl
      · rcases hcase with hc | hc <;> omega

/-- C10 witness: with limits 1/1, a caller that records twice (once after
the state was already full) leaves a count of 2 above the hourly limit,
and the check still answers with `allowed = false` and non-negative
remaining capacities. -/
theorem overcommit_safe_witness :
    (canSendEmail ⟨1, 1⟩ 0
        (recordEmailSent 0 (recordEmailSent 0 ⟨[], []⟩))).1.allowed = false ∧
    0 ≤ (canSendEmail ⟨1, 1⟩ 0
        (recordEmailSent 0 (recordEmailSent 0 ⟨[], []⟩))).1.hourlyRemaining ∧
    0 ≤ (canSendEmail ⟨1, 1⟩ 0
        (recordEmailSent 0 (recordEmailSent 0 ⟨[], []⟩))).1.dailyRemaining :=
  ⟨(overcommit_safe ⟨1, 1⟩ 0
        (recordEmailSent 0 (recordEmailSent 0 ⟨[], []⟩))).2.2.1 (by decide),
    (overcommit_safe ⟨1, 1⟩ 0
        (recordEmailSent 0 (recordEmailSent 0 ⟨[], []⟩))).1,
    (overcommit_safe ⟨1, 1⟩ 0
        (recordEmailSent 0 (recordEmailSent 0 ⟨[], []⟩))).2.1⟩

end GmailMcp
